/- Verification development for the buff_watcher repository (src/main.py).
   The definitions below are a shallow embedding of the monitoring core:
   the listing parser, the payload normalization, the alarm/monitor loop,
   the footer renderer and the startup configuration path. -/
import Mathlib

set_option maxHeartbeats 1000000

namespace BuffWatcher

/- ---------------------------------------------------------------------
   Python value model: results of `json.loads` / `toml.load`.
   Dictionaries are association lists in insertion order; numbers are
   modelled as rationals.
   --------------------------------------------------------------------- -/

mutual

inductive PyVal : Type where
  | dict : PyFields → PyVal
  | arr : PyList → PyVal
  | str : String → PyVal
  | bool : Bool → PyVal
  | num : ℚ → PyVal
  | null : PyVal
deriving DecidableEq

inductive PyFields : Type where
  | nil : PyFields
  | cons : String → PyVal → PyFields → PyFields
deriving DecidableEq

inductive PyList : Type where
  | nil : PyList
  | cons : PyVal → PyList → PyList
deriving DecidableEq

end

/-- Characters Python `str.strip()` removes by default. -/
def isPySpace (c : Char) : Bool :=
  c == ' ' || c == '\t' || c == '\n' || c == '\r' || c == '\x0b' || c == '\x0c'

/-- Model of Python `str.strip()`: drop leading and trailing whitespace. -/
def pyStrip (s : String) : String :=
  ⟨((s.data.dropWhile isPySpace).reverse.dropWhile isPySpace).reverse⟩

mutual

/-- Embedding of `_strip_recursive` (src/main.py:56-62).  Dict keys are
stripped; dict values that are strings are stripped before the recursive
call; list elements get the recursive call only, and the recursive call
returns a bare string unchanged. -/
def stripRecursive : PyVal → PyVal
  | .dict kvs => .dict (stripFields kvs)
  | .arr xs => .arr (stripList xs)
  | v => v

/-- The dict entry position evaluates
`k.strip(): _strip_recursive(v.strip() if isinstance(v, str) else v)`.
For a string value the inner recursive call returns its argument
unchanged, so the composite is one strip of the value. -/
def stripFields : PyFields → PyFields
  | .nil => .nil
  | .cons k (.str s) rest => .cons (pyStrip k) (.str (pyStrip s)) (stripFields rest)
  | .cons k v rest => .cons (pyStrip k) (stripRecursive v) (stripFields rest)

def stripList : PyList → PyList
  | .nil => .nil
  | .cons v rest => .cons (stripRecursive v) (stripList rest)

end

mutual

/-- The normalization the specification describes: trim every string key
and every string value at any nesting depth, including strings that sit
inside arrays (and a bare top-level string). -/
def trimAllSpec : PyVal → PyVal
  | .dict kvs => .dict (trimAllFields kvs)
  | .arr xs => .arr (trimAllList xs)
  | .str s => .str (pyStrip s)
  | v => v

def trimAllFields : PyFields → PyFields
  | .nil => .nil
  | .cons k v rest => .cons (pyStrip k) (trimAllSpec v) (trimAllFields rest)

def trimAllList : PyList → PyList
  | .nil => .nil
  | .cons v rest => .cons (trimAllSpec v) (trimAllList rest)

end

mutual

/-- Generic tree-walk formulation of the trimming the code actually
performs: the flag says whether a string in this position is trimmed.
Dict values are trimmed positions; array elements and the top level are
not. -/
def trimWalk : Bool → PyVal → PyVal
  | _, .dict kvs => .dict (trimWalkFields kvs)
  | _, .arr xs => .arr (trimWalkList xs)
  | true, .str s => .str (pyStrip s)
  | false, .str s => .str s
  | _, v => v

def trimWalkFields : PyFields → PyFields
  | .nil => .nil
  | .cons k v rest => .cons (pyStrip k) (trimWalk true v) (trimWalkFields rest)

def trimWalkList : PyList → PyList
  | .nil => .nil
  | .cons v rest => .cons (trimWalk false v) (trimWalkList rest)

end

/- ---------------------------------------------------------------------
   Payload clean-up: `goods_info_str.replace('&quot;', '"').replace(';', '')`
   --------------------------------------------------------------------- -/

/-- Model of Python `str.replace(old, new)`: replace all non-overlapping
occurrences left to right.  The fuel is the input length, which bounds the
number of steps (both call sites use a non-empty pattern). -/
def replaceAux (pat rep : List Char) : Nat → List Char → List Char
  | _, [] => []
  | 0, s => s
  | n + 1, c :: rest =>
    if pat ≠ [] ∧ pat.isPrefixOf (c :: rest) then
      rep ++ replaceAux pat rep n ((c :: rest).drop pat.length)
    else
      c :: replaceAux pat rep n rest

def pyReplace (s pat rep : String) : String :=
  ⟨replaceAux pat.data rep.data s.data.length s.data⟩

/-- Embedding of the clean-up at src/main.py:84: un-escape `&quot;` to a
double quote, then delete every `;`. -/
def cleanPayload (s : String) : String :=
  pyReplace (pyReplace s "&quot;" "\"") ";" ""

/- ---------------------------------------------------------------------
   `json.loads`, restricted to the JSON fragment the payloads use.
   --------------------------------------------------------------------- -/

/-- JSON insignificant whitespace. -/
def isJsonWs (c : Char) : Bool :=
  c == ' ' || c == '\t' || c == '\n' || c == '\r'

def skipWs (s : List Char) : List Char := s.dropWhile isJsonWs

/-- Characters accepted after a backslash in a JSON string
(`\uXXXX` escapes are outside the model). -/
def escChar : Char → Option Char
  | '"' => some '"'
  | '\\' => some '\\'
  | '/' => some '/'
  | 'b' => some '\x08'
  | 'f' => some '\x0c'
  | 'n' => some '\n'
  | 'r' => some '\r'
  | 't' => some '\t'
  | _ => none

/-- Body of a JSON string after the opening quote: returns the decoded
characters and the input after the closing quote. -/
def parseJStr : List Char → Option (List Char × List Char)
  | [] => none
  | '"' :: rest => some ([], rest)
  | '\\' :: rest =>
    match rest with
    | [] => none
    | e :: rest2 =>
      match escChar e with
      | none => none
      | some c =>
        match parseJStr rest2 with
        | none => none
        | some (s, r) => some (c :: s, r)
  | c :: rest =>
    match parseJStr rest with
    | none => none
    | some (s, r) => some (c :: s, r)

def digitVal (c : Char) : Nat := c.toNat - '0'.toNat

def digitsToNat (ds : List Char) : Nat :=
  ds.foldl (fun a c => 10 * a + digitVal c) 0

/-- The rational `±(w.f) × 10^(±e)` where `w` is the whole part, `f` the
fraction digits read as an integer, `fLen` the number of fraction digits.
Built from integer arithmetic and one `mkRat` so that it evaluates inside
the kernel. -/
def decToRat (neg : Bool) (w f fLen : Nat) (expNeg : Bool) (e : Nat) : ℚ :=
  let n : Nat := w * 10 ^ fLen + f
  let sn : Int := if neg then -(n : Int) else (n : Int)
  if expNeg then mkRat sn (10 ^ fLen * 10 ^ e)
  else mkRat (sn * ((10 ^ e : Nat) : Int)) (10 ^ fLen)

/-- Digits of an exponent suffix after the `e`/`E` marker: sign, exponent
and the rest of the input.  If no digits follow, the marker is left
unconsumed (`orig`) and the surrounding decoder fails on it. -/
def expDigits (orig r : List Char) : Bool × Nat × List Char :=
  let signed : Bool × List Char :=
    match r with
    | '+' :: rr => (false, rr)
    | '-' :: rr => (true, rr)
    | _ => (false, r)
  let es := signed.2.span Char.isDigit
  if es.1 = [] then (false, 0, orig)
  else (signed.1, digitsToNat es.1, es.2)

/-- Optional exponent suffix of a JSON number. -/
def parseExpTail (s : List Char) : Bool × Nat × List Char :=
  match s with
  | 'e' :: r => expDigits s r
  | 'E' :: r => expDigits s r
  | _ => (false, 0, s)

/-- A JSON number (the leading-zero strictness of the JSON grammar is not
modelled; the payload prices do not use it). -/
def parseNum (s : List Char) : Option (ℚ × List Char) :=
  let signed : Bool × List Char :=
    match s with
    | '-' :: r => (true, r)
    | _ => (false, s)
  let ds := signed.2.span Char.isDigit
  if ds.1 = [] then none
  else
    let fr : List Char × List Char :=
      match ds.2 with
      | '.' :: r =>
        let fs := r.span Char.isDigit
        if fs.1 = [] then ([], ds.2) else fs
      | _ => ([], ds.2)
    let ex := parseExpTail fr.2
    some (decToRat signed.1 (digitsToNat ds.1) (digitsToNat fr.1) fr.1.length ex.1 ex.2.1,
      ex.2.2)

mutual

/-- One JSON value; the fuel bounds the recursion depth. -/
def parseVal : Nat → List Char → Option (PyVal × List Char)
  | 0, _ => none
  | n + 1, s =>
    match skipWs s with
    | '\x7b' :: r =>
      match skipWs r with
      | '\x7d' :: r2 => some (.dict .nil, r2)
      | r2 =>
        match parseMembers n r2 with
        | none => none
        | some (kvs, rest) => some (.dict kvs, rest)
    | '[' :: r =>
      match skipWs r with
      | ']' :: r2 => some (.arr .nil, r2)
      | r2 =>
        match parseElems n r2 with
        | none => none
        | some (xs, rest) => some (.arr xs, rest)
    | '"' :: r =>
      match parseJStr r with
      | none => none
      | some (cs, rest) => some (.str ⟨cs⟩, rest)
    | 't' :: r => if ['r', 'u', 'e'].isPrefixOf r then some (.bool true, r.drop 3) else none
    | 'f' :: r => if ['a', 'l', 's', 'e'].isPrefixOf r then some (.bool false, r.drop 4) else none
    | 'n' :: r => if ['u', 'l', 'l'].isPrefixOf r then some (.null, r.drop 3) else none
    | s1 =>
      match parseNum s1 with
      | none => none
      | some (q, rest) => some (.num q, rest)

/-- Object members `"key": value (, "key": value)*` up to the closing brace;
the input starts at a key (whitespace skipped). -/
def parseMembers : Nat → List Char → Option (PyFields × List Char)
  | 0, _ => none
  | n + 1, s =>
    match s with
    | '"' :: r =>
      match parseJStr r with
      | none => none
      | some (kcs, r2) =>
        match skipWs r2 with
        | ':' :: r3 =>
          match parseVal n (skipWs r3) with
          | none => none
          | some (v, r4) =>
            match skipWs r4 with
            | ',' :: r5 =>
              match parseMembers n (skipWs r5) with
              | none => none
              | some (rest, r6) => some (.cons ⟨kcs⟩ v rest, r6)
            | '\x7d' :: r5 => some (.cons ⟨kcs⟩ v .nil, r5)
            | _ => none
        | _ => none
    | _ => none

/-- Array elements up to the closing bracket. -/
def parseElems : Nat → List Char → Option (PyList × List Char)
  | 0, _ => none
  | n + 1, s =>
    match parseVal n s with
    | none => none
    | some (v, r) =>
      match skipWs r with
      | ',' :: r2 =>
        match parseElems n (skipWs r2) with
        | none => none
        | some (rest, r3) => some (.cons v rest, r3)
      | ']' :: r2 => some (.cons v .nil, r2)
      | _ => none

end

/-- Embedding of `json.loads`: parse one value and require the rest of the
input to be whitespace, as the Python decoder does. -/
def jsonLoads (s : String) : Option PyVal :=
  match parseVal (2 * s.data.length + 4) s.data with
  | none => none
  | some (v, rest) => if skipWs rest = [] then some v else none

/- ---------------------------------------------------------------------
   Python `float(x)` on decoded values.
   --------------------------------------------------------------------- -/

/-- The exponent suffix of a `float()` literal: digits are mandatory and
must end the string. -/
def pyFloatExp (neg : Bool) (w f fLen : Nat) (r : List Char) : Option ℚ :=
  let signed : Bool × List Char :=
    match r with
    | '+' :: rr => (false, rr)
    | '-' :: rr => (true, rr)
    | _ => (false, r)
  let es := signed.2.span Char.isDigit
  if es.1 = [] then none
  else if es.2 = [] then some (decToRat neg w f fLen signed.1 (digitsToNat es.1))
  else none

/-- Model of `float(string)`: optional surrounding whitespace, optional
sign, digits with an optional fraction and exponent.  `inf`, `nan` and
underscore separators are outside the rational model. -/
def parsePyFloat (s : String) : Option ℚ :=
  let t := (pyStrip s).data
  let signed : Bool × List Char :=
    match t with
    | '-' :: r => (true, r)
    | '+' :: r => (false, r)
    | _ => (false, t)
  let ds := signed.2.span Char.isDigit
  let fr : List Char × List Char :=
    match ds.2 with
    | '.' :: r2 => r2.span Char.isDigit
    | _ => ([], ds.2)
  if ds.1 = [] ∧ fr.1 = [] then none
  else
    match fr.2 with
    | [] => some (decToRat signed.1 (digitsToNat ds.1) (digitsToNat fr.1) fr.1.length false 0)
    | 'e' :: r4 => pyFloatExp signed.1 (digitsToNat ds.1) (digitsToNat fr.1) fr.1.length r4
    | 'E' :: r4 => pyFloatExp signed.1 (digitsToNat ds.1) (digitsToNat fr.1) fr.1.length r4
    | _ => none

/-- Model of `float(x)` for the values `json.loads` can produce: numbers
convert, booleans convert (`float(True) = 1.0`), strings are parsed,
and `None`, lists and dicts raise `TypeError` (modelled as `none`). -/
def pyFloat : PyVal → Option ℚ
  | .num q => some q
  | .bool b => some (if b then 1 else 0)
  | .str s => parsePyFloat s
  | _ => none

/-- Lookup in a dict built from an association list: the last binding of a
key wins, as in a Python dict built by insertion.  Also decides the
`'key' in d` membership test. -/
def dictGet : PyFields → String → Option PyVal
  | .nil, _ => none
  | .cons k v rest, key =>
    match dictGet rest key with
    | some w => some w
    | none => if k == key then some v else none

/- ---------------------------------------------------------------------
   Markup model and the listing parser `parse_listings` (src/main.py:64-95).
   --------------------------------------------------------------------- -/

mutual

/-- Parsed page markup: element nodes carry tag name, the parsed `class`
attribute token list, remaining attributes, and children. -/
inductive Html : Type where
  | text : String → Html
  | elem : String → List String → List (String × String) → HtmlList → Html
deriving DecidableEq

inductive HtmlList : Type where
  | nil : HtmlList
  | cons : Html → HtmlList → HtmlList
deriving DecidableEq

end

mutual

/-- Descendants of a node in document (pre-)order, excluding the node
itself, as searched by `find_all`. -/
def Html.descend : Html → List Html
  | .text _ => []
  | .elem _ _ _ ch => HtmlList.nodes ch

/-- All nodes of a forest in document order, each followed by its
descendants, as searched by `soup.find`. -/
def HtmlList.nodes : HtmlList → List Html
  | .nil => []
  | .cons h t => h :: Html.descend h ++ HtmlList.nodes t

end

/-- `row.get(attribute)`: first matching attribute, else `None`. -/
def Html.getAttr : Html → String → Option String
  | .text _, _ => none
  | .elem _ _ attrs _, a =>
    match attrs.find? (fun p => p.1 == a) with
    | none => none
    | some p => some p.2

/-- The element `soup.find('table', class_='list_tb')` looks for. -/
def isListingsTable : Html → Bool
  | .text _ => false
  | .elem tag classes _ _ => tag == "table" && classes.contains "list_tb"

/-- The rows `listings_table.find_all('tr', class_='selling')` collects. -/
def isSellingRow : Html → Bool
  | .text _ => false
  | .elem tag classes _ _ => tag == "tr" && classes.contains "selling"

def findListingsTable (doc : HtmlList) : Option Html :=
  (HtmlList.nodes doc).find? isListingsTable

def sellingRows (table : Html) : List Html :=
  (Html.descend table).filter isSellingRow

/-- The contribution of one selling row to `prices`: zero or one offer.
Every failure inside the loop body (missing or empty attribute, decode
error, a non-dict payload, a missing `sell_min_price` key, a `float()`
error) is caught in the source and yields no contribution. -/
def rowOffer (row : Html) : List ℚ :=
  match row.getAttr "data-goods-info" with
  | none => []
  | some s =>
    if s = "" then []
    else
      match jsonLoads (cleanPayload s) with
      | none => []
      | some data =>
        match stripRecursive data with
        | .dict kvs =>
          match dictGet kvs "sell_min_price" with
          | none => []
          | some v =>
            match pyFloat v with
            | none => []
            | some q => [q]
        | _ => []

/-- Embedding of `parse_listings`.  The input is `none` for a failed fetch
(`None`) or an empty page string (both falsy in `if not html`); otherwise
the parsed markup forest. -/
def parseListings : Option HtmlList → List ℚ
  | none => []
  | some doc =>
    match findListingsTable doc with
    | none => []
    | some table => (sellingRows table).foldl (fun acc row => acc ++ rowOffer row) []

/- ---------------------------------------------------------------------
   Monitor loop state and alarm logic (src/main.py:152-191).
   --------------------------------------------------------------------- -/

/-- The per-item record of `items_data`; `lastUpdated` is an abstract
timestamp (`datetime.now()` of the cycle that recorded the price). -/
structure Item where
  displayName : String
  alarmPrice : ℚ
  lowestPrice : Option ℚ := none
  lastUpdated : Option Nat := none
deriving DecidableEq

/-- `active_alarms.add(name)`, observable through set membership. -/
def pyAdd (act : List String) (n : String) : List String :=
  if n ∈ act then act else n :: act

/-- `active_alarms.remove(name)`: removal of every occurrence models the
set semantics (the loop only calls it when the name is present). -/
def pyRemove (act : List String) (n : String) : List String :=
  act.filter (fun m => m != n)

/-- The loop body for one item and one cycle (src/main.py:175-188): when
the parsed `prices` are non-empty, record their minimum and the timestamp,
then add/remove the alarm; the returned flag is whether
`play_alarm_sound()` ran. -/
def stepItem (now : Nat) (prices : List ℚ) (it : Item) (act : List String) :
    Item × List String × Bool :=
  match prices.min? with
  | none => (it, act, false)
  | some lowest =>
    let upd : Item := { it with lowestPrice := some lowest, lastUpdated := some now }
    if lowest ≤ it.alarmPrice then
      if it.displayName ∈ act then (upd, act, false)
      else (upd, pyAdd act it.displayName, true)
    else
      if it.displayName ∈ act then (upd, pyRemove act it.displayName, false)
      else (upd, act, false)

/-- `for item in items_data:` applied down the list, threading
`active_alarms`; `samples` lists each item's parsed prices for this cycle
(a missing entry reads as an empty parse). -/
def stepList (now : Nat) : List Item → List (List ℚ) → List String → List Item × List String
  | [], _, act => ([], act)
  | it :: its, samples, act =>
    let r := stepItem now (samples.headD []) it act
    let rest := stepList now its samples.tail r.2.1
    (r.1 :: rest.1, rest.2)

/-- The mutable state owned by the monitor loop. -/
structure MonState where
  items : List Item
  active : List String
deriving DecidableEq

/-- One full polling cycle. -/
def stepCycle (now : Nat) (samples : List (List ℚ)) (s : MonState) : MonState :=
  let r := stepList now s.items samples s.active
  ⟨r.1, r.2⟩

/-- Any number of polling cycles, each with a timestamp and the per-item
parse results. -/
def runCycles : List (Nat × List (List ℚ)) → MonState → MonState
  | [], s => s
  | c :: rest, s => runCycles rest (stepCycle c.1 c.2 s)

/-- The startup state built from the configuration records
(src/main.py:152-163): no price, no timestamp, no active alarms. -/
def initState (cfg : List (String × ℚ)) : MonState :=
  ⟨cfg.map (fun p => { displayName := p.1, alarmPrice := p.2 }), []⟩

/-- The alarm invariant for one item: its name is an active alarm exactly
when the recorded lowest price exists and is at or below the threshold. -/
def itemInv (it : Item) (act : List String) : Prop :=
  it.displayName ∈ act ↔ ∃ p, it.lowestPrice = some p ∧ p ≤ it.alarmPrice

/- ---------------------------------------------------------------------
   Console footer (src/main.py:133-140).
   --------------------------------------------------------------------- -/

/-- Insertion into a sorted list of names. -/
def insertName (s : String) : List String → List String
  | [] => [s]
  | x :: xs => if s ≤ x then s :: x :: xs else x :: insertName s xs

/-- `sorted(list(active_alarms))`. -/
def sortNames (l : List String) : List String :=
  l.foldr insertName []

/-- The names that actually appear in the Active Alarms footer: for each
active name in sorted order, the first matching item row is looked up and
the line is emitted only under `if item_data and item_data['lowest_price']:`,
a truthiness test that a `None` price and a `0` price both fail. -/
def footerNames (itemsData : List Item) (active : List String) : List String :=
  (sortNames active).filter fun n =>
    match itemsData.find? (fun it => it.displayName == n) with
    | none => false
    | some it =>
      match it.lowestPrice with
      | none => false
      | some p => decide (p ≠ 0)

/- ---------------------------------------------------------------------
   Startup configuration path (src/main.py:23-30 and 149-161).
   --------------------------------------------------------------------- -/

/-- What reading and decoding `config.toml` can produce.  `missing` is a
`FileNotFoundError` from `open`; `unreadable` any other `OSError`;
`badToml` a `TomlDecodeError` from `toml.load`; `decoded` a successful
decode (always a top-level table). -/
inductive ConfigSrc : Type where
  | missing : ConfigSrc
  | unreadable : ConfigSrc
  | badToml : ConfigSrc
  | decoded : PyFields → ConfigSrc
deriving DecidableEq

/-- One record of `items_data` as built at src/main.py:152-161; the three
configured fields are kept as decoded values. -/
structure RawItem where
  display_name : PyVal
  url : PyVal
  alarm_price : PyVal
deriving DecidableEq

/-- How the process can leave the startup phase. `exitWithMessage` is the
caught `FileNotFoundError` path (printed diagnostic, `exit(1)`);
`uncaughtError` an uncaught exception (traceback, non-zero interpreter
exit); `running` means polling begins with the given records. -/
inductive StartupOutcome : Type where
  | exitWithMessage : StartupOutcome
  | uncaughtError : StartupOutcome
  | running : List RawItem → StartupOutcome
deriving DecidableEq

/-- Whether a decoded item entry is a dict carrying the three required
keys; anything else makes the comprehension at src/main.py:152-161 raise
(`KeyError` on a dict missing a key, `TypeError` on a non-dict). -/
def isRecord : PyVal → Bool
  | .dict kvs =>
    (dictGet kvs "display_name").isSome && (dictGet kvs "url").isSome &&
      (dictGet kvs "alarm_price").isSome
  | _ => false

/-- Builds `items_data` from the decoded `items` list; `none` models an
exception escaping the comprehension. -/
def buildItems : PyList → Option (List RawItem)
  | .nil => some []
  | .cons e rest =>
    match e with
    | .dict kvs =>
      match dictGet kvs "display_name", dictGet kvs "url", dictGet kvs "alarm_price" with
      | some d, some u, some a =>
        match buildItems rest with
        | none => none
        | some items => some (⟨d, u, a⟩ :: items)
      | _, _, _ => none
    | _ => none

/-- The startup phase: `load_config` (src/main.py:23-30) followed by the
construction of `items_data` (src/main.py:149-161).  Only
`FileNotFoundError` is caught; `config.get("items", [])` defaults a
missing key to the empty list; iterating a non-list raises `TypeError`,
except that an empty string or empty table iterates to nothing. -/
def startup : ConfigSrc → StartupOutcome
  | .missing => .exitWithMessage
  | .unreadable => .uncaughtError
  | .badToml => .uncaughtError
  | .decoded kvs =>
    match dictGet kvs "items" with
    | none => .running []
    | some (.arr lst) =>
      match buildItems lst with
      | none => .uncaughtError
      | some items => .running items
    | some (.str s) => if s = "" then .running [] else .uncaughtError
    | some (.dict .nil) => .running []
    | some (.dict (.cons _ _ _)) => .uncaughtError
    | some _ => .uncaughtError

/-- View of a decoded Python list as a Lean list. -/
def pyListToList : PyList → List PyVal
  | .nil => []
  | .cons v rest => v :: pyListToList rest

/- ---------------------------------------------------------------------
   Concrete pages used by the parser claims.
   --------------------------------------------------------------------- -/

/-- Scenario C: a listing table with three selling rows — a valid payload
with price 80.00, a corrupted (truncated) payload, and a valid payload
with price 75.00; quotes arrive entity-escaped as on the real page. -/
def scenarioCDoc : HtmlList :=
  HtmlList.cons
    (Html.elem "table" ["list_tb"] []
      (HtmlList.cons
        (Html.elem "tr" ["selling"]
          [("data-goods-info", "\x7b&quot;sell_min_price&quot;: &quot;80.00&quot;\x7d")] .nil)
        (HtmlList.cons
          (Html.elem "tr" ["selling"]
            [("data-goods-info", "\x7b&quot;sell_min_price&quot;")] .nil)
          (HtmlList.cons
            (Html.elem "tr" ["selling"]
              [("data-goods-info", "\x7b&quot;sell_min_price&quot;: &quot;75.00&quot;\x7d")] .nil)
            .nil))))
    .nil

/-- A page whose single selling row carries a negative price. -/
def negPriceDoc : HtmlList :=
  HtmlList.cons
    (Html.elem "table" ["list_tb"] []
      (HtmlList.cons
        (Html.elem "tr" ["selling"]
          [("data-goods-info", "\x7b&quot;sell_min_price&quot;: &quot;-5.00&quot;\x7d")] .nil)
        .nil))
    .nil

/-- A page with markup but no `table.list_tb` container. -/
def noTableDoc : HtmlList :=
  HtmlList.cons (Html.elem "div" ["content"] [] .nil) .nil

/- ---------------------------------------------------------------------
   Helper lemmas about the alarm step.
   --------------------------------------------------------------------- -/

theorem stepItem_displayName (now : Nat) (ps : List ℚ) (it : Item) (act : List String) :
    (stepItem now ps it act).1.displayName = it.displayName := by
  unfold stepItem
  cases ps.min? with
  | none => rfl
  | some m =>
    by_cases hle : m ≤ it.alarmPrice <;> by_cases hm : it.displayName ∈ act <;>
      simp [hle, hm]

theorem stepItem_alarmPrice (now : Nat) (ps : List ℚ) (it : Item) (act : List String) :
    (stepItem now ps it act).1.alarmPrice = it.alarmPrice := by
  unfold stepItem
  cases ps.min? with
  | none => rfl
  | some m =>
    by_cases hle : m ≤ it.alarmPrice <;> by_cases hm : it.displayName ∈ act <;>
      simp [hle, hm]

theorem stepItem_mem_other (now : Nat) (ps : List ℚ) (it : Item) (act : List String)
    (n : String) (hne : n ≠ it.displayName) :
    ((n ∈ (stepItem now ps it act).2.1) ↔ n ∈ act) := by
  unfold stepItem pyAdd pyRemove
  cases ps.min? with
  | none => simp
  | some m =>
    by_cases hle : m ≤ it.alarmPrice <;> by_cases hm : it.displayName ∈ act <;>
      simp [hle, hm, List.mem_filter, hne, bne_iff_ne]

theorem stepItem_inv (now : Nat) (ps : List ℚ) (it : Item) (act : List String)
    (h : itemInv it act) :
    itemInv (stepItem now ps it act).1 (stepItem now ps it act).2.1 := by
  unfold stepItem
  cases ps.min? with
  | none => simpa using h
  | some m =>
    by_cases hle : m ≤ it.alarmPrice <;> by_cases hm : it.displayName ∈ act <;>
      simp [itemInv, hle, hm, pyAdd, pyRemove, List.mem_filter]

theorem itemInv_mem_congr (it : Item) (act act2 : List String) (h : itemInv it act)
    (hm : (it.displayName ∈ act2) ↔ it.displayName ∈ act) : itemInv it act2 :=
  hm.trans h

theorem stepList_names (now : Nat) :
    ∀ (its : List Item) (samples : List (List ℚ)) (act : List String),
      (stepList now its samples act).1.map Item.displayName = its.map Item.displayName := by
  intro its
  induction its with
  | nil => intro samples act; rfl
  | cons it rest ih =>
    intro samples act
    simp [stepList, ih, stepItem_displayName]

theorem stepList_mem_other (now : Nat) :
    ∀ (its : List Item) (samples : List (List ℚ)) (act : List String) (n : String),
      n ∉ its.map Item.displayName →
      ((n ∈ (stepList now its samples act).2) ↔ n ∈ act) := by
  intro its
  induction its with
  | nil => intro samples act n _; rfl
  | cons it rest ih =>
    intro samples act n hn
    simp only [List.map_cons, List.mem_cons, not_or] at hn
    calc (n ∈ (stepList now (it :: rest) samples act).2)
        ↔ n ∈ (stepItem now (samples.headD []) it act).2.1 :=
          ih samples.tail _ n hn.2
      _ ↔ n ∈ act := stepItem_mem_other now _ it act n hn.1

theorem stepList_inv (now : Nat) :
    ∀ (its : List Item) (samples : List (List ℚ)) (act : List String),
      (its.map Item.displayName).Nodup →
      (∀ it ∈ its, itemInv it act) →
      ∀ it ∈ (stepList now its samples act).1,
        itemInv it (stepList now its samples act).2 := by
  intro its
  induction its with
  | nil => intro samples act _ _ it hit; simp [stepList] at hit
  | cons it0 rest ih =>
    intro samples act hnd hinv it hit
    simp only [List.map_cons, List.nodup_cons] at hnd
    have hn0 : it0.displayName ∉ rest.map Item.displayName := hnd.1
    have hact1 : itemInv (stepItem now (samples.headD []) it0 act).1
        (stepItem now (samples.headD []) it0 act).2.1 :=
      stepItem_inv now _ it0 act (hinv it0 (List.mem_cons_self it0 rest))
    have hrest : ∀ jt ∈ rest, itemInv jt (stepItem now (samples.headD []) it0 act).2.1 := by
      intro jt hjt
      refine itemInv_mem_congr jt act _ (hinv jt (List.mem_cons_of_mem _ hjt)) ?_
      refine stepItem_mem_other now _ it0 act jt.displayName ?_
      intro he
      exact hn0 (he ▸ List.mem_map_of_mem Item.displayName hjt)
    rcases (List.mem_cons.mp hit) with h0 | hr
    · subst h0
      refine itemInv_mem_congr _ (stepItem now (samples.headD []) it0 act).2.1 _ hact1 ?_
      refine stepList_mem_other now rest samples.tail _ _ ?_
      rw [stepItem_displayName]
      exact hn0
    · exact ih samples.tail _ hnd.2 hrest it hr

theorem stepCycle_inv (now : Nat) (samples : List (List ℚ)) (s : MonState)
    (hnd : (s.items.map Item.displayName).Nodup)
    (hinv : ∀ it ∈ s.items, itemInv it s.active) :
    ((stepCycle now samples s).items.map Item.displayName = s.items.map Item.displayName) ∧
      ∀ it ∈ (stepCycle now samples s).items, itemInv it (stepCycle now samples s).active :=
  ⟨stepList_names now s.items samples s.active,
    stepList_inv now s.items samples s.active hnd hinv⟩

theorem runCycles_inv :
    ∀ (trace : List (Nat × List (List ℚ))) (s : MonState),
      (s.items.map Item.displayName).Nodup →
      (∀ it ∈ s.items, itemInv it s.active) →
      ∀ it ∈ (runCycles trace s).items, itemInv it (runCycles trace s).active := by
  intro trace
  induction trace with
  | nil => intro s _ hinv it hit; exact hinv it hit
  | cons c rest ih =>
    intro s hnd hinv
    have h := stepCycle_inv c.1 c.2 s hnd hinv
    exact ih (stepCycle c.1 c.2 s) (h.1 ▸ hnd) h.2

theorem initState_names (cfg : List (String × ℚ)) :
    (initState cfg).items.map Item.displayName = cfg.map Prod.fst := by
  simp [initState, List.map_map]

theorem initState_inv (cfg : List (String × ℚ)) :
    ∀ it ∈ (initState cfg).items, itemInv it (initState cfg).active := by
  intro it hit
  simp only [initState, List.mem_map] at hit
  rcases hit with ⟨p, _, hp⟩
  subst hp
  simp [itemInv, initState]

theorem stepItem_empty (now : Nat) (it : Item) (act : List String) :
    stepItem now [] it act = (it, act, false) := rfl

theorem stepList_get_of_empty (now : Nat) :
    ∀ (its : List Item) (samples : List (List ℚ)) (act : List String) (i : Nat),
      samples.getD i [] = [] →
      (stepList now its samples act).1[i]? = its[i]? := by
  intro its
  induction its with
  | nil => intro samples act i _; simp [stepList]
  | cons it rest ih =>
    intro samples act i h
    cases i with
    | zero =>
      have hs : samples.headD [] = [] := by
        cases samples <;> simp_all [List.getD]
      simp only [stepList]
      rw [hs, stepItem_empty]
      simp
    | succ j =>
      have ht : samples.tail.getD j [] = [] := by
        cases samples <;> simp_all [List.getD]
      simp only [stepList, List.getElem?_cons_succ]
      exact ih samples.tail _ j ht

/- ---------------------------------------------------------------------
   Claims about the alarm state machine and monitor loop.
   --------------------------------------------------------------------- -/

/-- C1: the notification fires exactly on an Inactive-to-Active edge:
with the cycle's lowest price present and at or below the threshold, the
sound plays if and only if the item was not already in `active_alarms`;
it never plays while the name is already active, and never on a clearing
(above-threshold) cycle. -/
theorem alarm_fires_exactly_on_activation (now : Nat) (ps : List ℚ) (it : Item)
    (act : List String) :
    ((stepItem now ps it act).2.2 = true ↔
      (∃ m, ps.min? = some m ∧ m ≤ it.alarmPrice) ∧ it.displayName ∉ act) ∧
    (it.displayName ∈ act → (stepItem now ps it act).2.2 = false) ∧
    ((∃ m, ps.min? = some m ∧ it.alarmPrice < m) → (stepItem now ps it act).2.2 = false) := by
  unfold stepItem
  cases h : ps.min? with
  | none => simp
  | some m =>
    by_cases hle : m ≤ it.alarmPrice <;> by_cases hm : it.displayName ∈ act <;>
      simp [hle, hm, not_le, le_of_lt]

/-- Witness for C1 at a concrete input: price 5 against threshold 10 with
no alarm active fires the notification. -/
theorem alarm_fires_exactly_on_activation_witness :
    (stepItem 0 [5] ⟨"A", 10, none, none⟩ []).2.2 = true :=
  (alarm_fires_exactly_on_activation 0 [5] ⟨"A", 10, none, none⟩ []).1.mpr
    ⟨⟨5, by decide, by decide⟩, by decide⟩

/-- C2: a cycle whose sample yields no prices leaves the item record and
the active-alarm set exactly as they were and fires no notification. -/
theorem emptySample_unchanged (now : Nat) (it : Item) (act : List String) :
    stepItem now [] it act = (it, act, false) := rfl

/-- C3: on a no-price cycle the recorded `lowest_price` and `last_updated`
keep their previous values; one item's step never changes any other name's
alarm membership; and in the cycle over the whole item list, an item whose
sample is empty keeps its record untouched regardless of what the sibling
items do. -/
theorem emptySample_frame (now : Nat) (ps : List ℚ) (it : Item) (act : List String)
    (n : String) (its : List Item) (samples : List (List ℚ)) (i : Nat) :
    ((stepItem now [] it act).1.lowestPrice = it.lowestPrice ∧
      (stepItem now [] it act).1.lastUpdated = it.lastUpdated ∧
      (stepItem now [] it act).2.1 = act) ∧
    (n ≠ it.displayName → ((n ∈ (stepItem now ps it act).2.1) ↔ n ∈ act)) ∧
    (samples.getD i [] = [] → (stepList now its samples act).1[i]? = its[i]?) :=
  ⟨by simp [stepItem_empty], fun h => stepItem_mem_other now ps it act n h,
    fun h => stepList_get_of_empty now its samples act i h⟩

/-- Witness for C3: one item with an empty sample in a one-item cycle
keeps its record. -/
theorem emptySample_frame_witness :
    (stepList 0 [⟨"A", 10, none, none⟩] [[]] ["X"]).1[0]? =
      some ⟨"A", 10, none, none⟩ :=
  (emptySample_frame 0 [] ⟨"A", 10, none, none⟩ ["X"] "n" [⟨"A", 10, none, none⟩]
    [[]] 0).2.2 (by decide)

/-- C4: in every state the monitor loop can reach from startup (distinct
configured names), an item's name is in `active_alarms` exactly when its
most recently recorded lowest price exists and is at or below its
threshold. -/
theorem monitor_alarm_invariant (cfg : List (String × ℚ))
    (trace : List (Nat × List (List ℚ))) (hnd : (cfg.map Prod.fst).Nodup)
    (it : Item) (hit : it ∈ (runCycles trace (initState cfg)).items) :
    itemInv it (runCycles trace (initState cfg)).active :=
  runCycles_inv trace (initState cfg) (by rw [initState_names]; exact hnd)
    (initState_inv cfg) it hit

/-- Witness for C4: one item, one cycle with price 5 against threshold 10. -/
theorem monitor_alarm_invariant_witness :
    itemInv ⟨"A", 10, some 5, some 0⟩
      (runCycles [(0, [[5]])] (initState [("A", 10)])).active :=
  monitor_alarm_invariant [("A", 10)] [(0, [[5]])] (by decide)
    ⟨"A", 10, some 5, some 0⟩ (by decide)

/- ---------------------------------------------------------------------
   Helper lemmas about the listing parser.
   --------------------------------------------------------------------- -/

theorem foldl_append_rowOffer (rows : List Html) :
    ∀ acc : List ℚ,
      rows.foldl (fun a r => a ++ rowOffer r) acc = acc ++ rows.flatMap rowOffer := by
  induction rows with
  | nil => intro acc; simp
  | cons r rest ih => intro acc; simp [ih]

theorem rowOffer_decode_failure (row : Html) (s : String)
    (hattr : Html.getAttr row "data-goods-info" = some s)
    (hjson : jsonLoads (cleanPayload s) = none) : rowOffer row = [] := by
  unfold rowOffer
  rw [hattr]
  by_cases hs : s = ""
  · simp [hs]
  · simp [hs, hjson]

theorem rowOffer_no_price (row : Html) (s : String) (d : PyVal) (kvs : PyFields)
    (hattr : Html.getAttr row "data-goods-info" = some s) (hs : s ≠ "")
    (hjson : jsonLoads (cleanPayload s) = some d)
    (hstrip : stripRecursive d = .dict kvs)
    (hget : dictGet kvs "sell_min_price" = none ∨
      ∃ v, dictGet kvs "sell_min_price" = some v ∧ pyFloat v = none) :
    rowOffer row = [] := by
  unfold rowOffer
  rw [hattr]
  rcases hget with hget | ⟨v, hget, hfv⟩
  · simp [hs, hjson, hstrip, hget]
  · simp [hs, hjson, hstrip, hget, hfv]

mutual

theorem strip_eq_walk_val : (v : PyVal) → stripRecursive v = trimWalk false v
  | .dict kvs => congrArg PyVal.dict (strip_eq_walk_fields kvs)
  | .arr xs => congrArg PyVal.arr (strip_eq_walk_list xs)
  | .str _ => rfl
  | .bool _ => rfl
  | .num _ => rfl
  | .null => rfl

theorem strip_eq_walk_fields : (fs : PyFields) → stripFields fs = trimWalkFields fs
  | .nil => rfl
  | .cons k (.str s) rest => by
    simp only [stripFields, trimWalkFields, trimWalk, strip_eq_walk_fields rest]
  | .cons k (.dict kvs) rest => by
    simp only [stripFields, trimWalkFields, trimWalk, stripRecursive,
      strip_eq_walk_fields rest, strip_eq_walk_fields kvs]
  | .cons k (.arr xs) rest => by
    simp only [stripFields, trimWalkFields, trimWalk, stripRecursive,
      strip_eq_walk_fields rest, strip_eq_walk_list xs]
  | .cons k (.bool b) rest => by
    simp only [stripFields, trimWalkFields, trimWalk, stripRecursive,
      strip_eq_walk_fields rest]
  | .cons k (.num q) rest => by
    simp only [stripFields, trimWalkFields, trimWalk, stripRecursive,
      strip_eq_walk_fields rest]
  | .cons k .null rest => by
    simp only [stripFields, trimWalkFields, trimWalk, stripRecursive,
      strip_eq_walk_fields rest]

theorem strip_eq_walk_list : (l : PyList) → stripList l = trimWalkList l
  | .nil => rfl
  | .cons v rest => by
    rw [stripList, trimWalkList, strip_eq_walk_val v, strip_eq_walk_list rest]

end

/- ---------------------------------------------------------------------
   Claims about the listing parser.
   --------------------------------------------------------------------- -/

/-- C5: a failed fetch or empty page (`if not html`) and any markup
without the `table.list_tb` container both parse to the empty price
list, with no failure. -/
theorem parse_empty_or_no_container (doc : HtmlList)
    (h : findListingsTable doc = none) :
    parseListings none = [] ∧ parseListings (some doc) = [] := by
  refine ⟨rfl, ?_⟩
  simp [parseListings, h]

/-- Witness for C5: markup with content but no listing table parses to
nothing. -/
theorem parse_empty_or_no_container_witness :
    parseListings none = [] ∧ parseListings (some noTableDoc) = [] :=
  parse_empty_or_no_container noTableDoc (by decide)

/-- C6: the page result is the concatenation of independent per-row
contributions, a row whose payload fails to decode or lacks a usable
`sell_min_price` contributes nothing, and the three-row page of scenario
C (one corrupted row, prices 80.00 and 75.00) parses to exactly those two
prices with minimum 75.00. -/
theorem parse_partial_failure_isolation :
    (∀ doc table, findListingsTable doc = some table →
      parseListings (some doc) = (sellingRows table).flatMap rowOffer) ∧
    (∀ row s, Html.getAttr row "data-goods-info" = some s →
      jsonLoads (cleanPayload s) = none → rowOffer row = []) ∧
    (∀ row s d kvs, Html.getAttr row "data-goods-info" = some s → s ≠ "" →
      jsonLoads (cleanPayload s) = some d → stripRecursive d = .dict kvs →
      (dictGet kvs "sell_min_price" = none ∨
        ∃ v, dictGet kvs "sell_min_price" = some v ∧ pyFloat v = none) →
      rowOffer row = []) ∧
    parseListings (some scenarioCDoc) = [80, 75] ∧
    (parseListings (some scenarioCDoc)).min? = some 75 := by
  refine ⟨?_, ?_, ?_, by decide, by decide⟩
  · intro doc table h
    simp [parseListings, h, foldl_append_rowOffer]
  · exact fun row s hattr hjson => rowOffer_decode_failure row s hattr hjson
  · exact fun row s d kvs hattr hs hjson hstrip hget =>
      rowOffer_no_price row s d kvs hattr hs hjson hstrip hget

/-- Witness for C6: the scenario C page evaluated concretely. -/
theorem parse_partial_failure_isolation_witness :
    parseListings (some scenarioCDoc) = [80, 75] :=
  parse_partial_failure_isolation.2.2.2.1

/-- C7 counterexample: the code's normalization does not trim strings
nested inside arrays.  The payload `["  x  "]` decodes to an array whose
element keeps its surrounding whitespace, while the normalization the
claim describes trims it. -/
theorem strip_array_string_counterexample :
    jsonLoads (cleanPayload "[&quot;  x  &quot;]") =
      some (.arr (.cons (.str "  x  ") .nil)) ∧
    stripRecursive (.arr (.cons (.str "  x  ") .nil)) =
      .arr (.cons (.str "  x  ") .nil) ∧
    trimAllSpec (.arr (.cons (.str "  x  ") .nil)) =
      .arr (.cons (.str "x") .nil) ∧
    stripRecursive (.arr (.cons (.str "  x  ") .nil)) ≠
      trimAllSpec (.arr (.cons (.str "  x  ") .nil)) := by decide

/-- C7 amended: the normalization un-escapes quote entities and deletes
the `;` noise character on the raw payload, and trims every string key
and every string sitting directly in a dict value position at any
nesting depth — but a string that is an array element (or the bare
top-level value) is left untrimmed.  The trimming is exactly the
dict-value-only tree walk. -/
theorem payload_normalization_amended :
    (∀ v, stripRecursive v = trimWalk false v) ∧
    cleanPayload "\x7b&quot;a b&quot;: &quot; c ;&quot;\x7d" =
      "\x7b\"a b\": \" c \"\x7d" :=
  ⟨strip_eq_walk_val, by decide⟩

/-- C8 counterexample: the parser performs no sign check — a page whose
row carries `sell_min_price` of -5.00 emits the negative offer. -/
theorem negative_offer_counterexample :
    parseListings (some negPriceDoc) = [-5] ∧ ((-5 : ℚ) < 0) := by decide

/-- C8 amended: a row whose `sell_min_price` fails float conversion is
dropped silently and a row with a convertible value contributes exactly
that value — with no non-negativity (or finiteness) validation, so a
negative price is emitted as an offer. -/
theorem offers_not_validated (row : Html) (s : String) (d : PyVal) (kvs : PyFields)
    (v : PyVal) (q : ℚ) :
    (Html.getAttr row "data-goods-info" = some s → s ≠ "" →
      jsonLoads (cleanPayload s) = some d → stripRecursive d = .dict kvs →
      dictGet kvs "sell_min_price" = some v → pyFloat v = none →
      rowOffer row = []) ∧
    (Html.getAttr row "data-goods-info" = some s → s ≠ "" →
      jsonLoads (cleanPayload s) = some d → stripRecursive d = .dict kvs →
      dictGet kvs "sell_min_price" = some v → pyFloat v = some q →
      rowOffer row = [q]) ∧
    parseListings (some negPriceDoc) = [-5] := by
  refine ⟨?_, ?_, by decide⟩
  · intro hattr hs hjson hstrip hget hfv
    exact rowOffer_no_price row s d kvs hattr hs hjson hstrip (Or.inr ⟨v, hget, hfv⟩)
  · intro hattr hs hjson hstrip hget hfv
    unfold rowOffer
    rw [hattr]
    simp only [hs, if_false, hjson, hstrip, hget, hfv]

/-- Witness for C8 (amended): a concrete row with an unparsable price is
dropped. -/
theorem offers_not_validated_witness :
    rowOffer (Html.elem "tr" ["selling"]
      [("data-goods-info", "\x7b&quot;sell_min_price&quot;: &quot;soon&quot;\x7d")] .nil) = [] :=
  (offers_not_validated
    (Html.elem "tr" ["selling"]
      [("data-goods-info", "\x7b&quot;sell_min_price&quot;: &quot;soon&quot;\x7d")] .nil)
    "\x7b&quot;sell_min_price&quot;: &quot;soon&quot;\x7d"
    (.dict (.cons "sell_min_price" (.str "soon") .nil))
    (.cons "sell_min_price" (.str "soon") .nil)
    (.str "soon") 0).1
    (by decide) (by decide) (by decide) (by decide) (by decide) (by decide)

/- ---------------------------------------------------------------------
   Claims about startup and the footer renderer.
   --------------------------------------------------------------------- -/

theorem buildItems_of_bad_entry :
    (lst : PyList) → ∀ (e : PyVal), e ∈ pyListToList lst → isRecord e = false →
      buildItems lst = none
  | .nil => by intro e he _; simp [pyListToList] at he
  | .cons v rest => by
    intro e he hbad
    have ih := fun e he hbad => buildItems_of_bad_entry rest e he hbad
    simp only [pyListToList, List.mem_cons] at he
    rcases he with he | he
    · subst he
      cases e with
      | dict kvs =>
        unfold buildItems
        cases hd : dictGet kvs "display_name" <;> cases hu : dictGet kvs "url" <;>
          cases ha : dictGet kvs "alarm_price" <;> simp_all [isRecord]
      | arr xs => rfl
      | str s => rfl
      | bool b => rfl
      | num q => rfl
      | null => rfl
    · have hrest := ih e he hbad
      unfold buildItems
      cases v with
      | dict kvs =>
        cases hd : dictGet kvs "display_name" <;> cases hu : dictGet kvs "url" <;>
          cases ha : dictGet kvs "alarm_price" <;> simp [hd, hu, ha, hrest]
      | arr xs => rfl
      | str s => rfl
      | bool b => rfl
      | num q => rfl
      | null => rfl

/-- C9 counterexample: a configuration that decodes but has no `items`
entry — an empty config file decodes to the empty table — is not fatal:
startup succeeds with zero items and polling begins. -/
theorem startup_no_items_counterexample :
    startup (.decoded .nil) = .running [] := rfl

/-- C9 amended: the missing-file path prints a diagnostic and exits with
status 1; an unreadable file or an undecodable file aborts through an
uncaught exception before polling; an `items` entry containing a
non-record aborts the same way; but a decodable configuration with no
`items` key at all is accepted as an empty item list and polling begins. -/
theorem startup_fatal_config (kvs : PyFields) (lst : PyList) (e : PyVal) :
    startup .missing = .exitWithMessage ∧
    startup .unreadable = .uncaughtError ∧
    startup .badToml = .uncaughtError ∧
    (dictGet kvs "items" = some (.arr lst) → e ∈ pyListToList lst →
      isRecord e = false → startup (.decoded kvs) = .uncaughtError) ∧
    (dictGet kvs "items" = none → startup (.decoded kvs) = .running []) := by
  refine ⟨rfl, rfl, rfl, ?_, ?_⟩
  · intro h hm hb
    simp [startup, h, buildItems_of_bad_entry lst e hm hb]
  · intro h
    simp [startup, h]

/-- Witness for C9 (amended): an `items` list holding a bare string
aborts startup with an uncaught exception. -/
theorem startup_fatal_config_witness :
    startup (.decoded (.cons "items" (.arr (.cons (.str "oops") .nil)) .nil)) =
      .uncaughtError :=
  (startup_fatal_config (.cons "items" (.arr (.cons (.str "oops") .nil)) .nil)
    (.cons (.str "oops") .nil) (.str "oops")).2.2.2.1 (by decide) (by decide) (by decide)

/-- C10: a name in the active-alarm set is omitted from the rendered
footer whenever its item's recorded lowest price is `None` or exactly 0
(the Python truthiness test), even though the name stays in the monitor's
active set. -/
theorem footer_omits_zero_or_none (items : List Item) (active : List String)
    (n : String) (it : Item) (_hmem : n ∈ active)
    (hfind : items.find? (fun i => i.displayName == n) = some it)
    (hp : it.lowestPrice = none ∨ it.lowestPrice = some 0) :
    n ∉ footerNames items active := by
  intro hin
  unfold footerNames at hin
  have hpred := (List.mem_filter.mp hin).2
  rw [hfind] at hpred
  rcases hp with hp | hp <;> simp [hp] at hpred

/-- Witness for C10: an active alarm with recorded price 0 is not
rendered. -/
theorem footer_omits_zero_or_none_witness :
    ("A" : String) ∉ footerNames [⟨"A", 10, some 0, some 0⟩] ["A"] :=
  footer_omits_zero_or_none [⟨"A", 10, some 0, some 0⟩] ["A"] "A"
    ⟨"A", 10, some 0, some 0⟩ (by decide) (by decide) (Or.inr rfl)

end BuffWatcher
